import Mathlib

/-!
Verification development for the ourcloud-fcm-push-gateway repository.

The Go sources are shallowly embedded: machine integers become `Int`/`Nat`,
Go `time.Time` instants and `time.Duration` values become `Int` (the store
persists instants as Unix seconds, so the integer model is exact),
`[]byte` content identifiers become `List Nat`, SQL tables become
association lists, and external collaborators (the protobuf codec, the
metadata client, the FCM provider, the clock, UUID generation, lock
acquisition races and injected I/O failures) become explicit oracle
parameters.  Fallible results are modelled with `Option` or a dedicated
outcome type.
-/

namespace PushGateway

/-! ### Association-list helpers (model of keyed SQL tables and Go maps) -/

section AssocList

variable {α β : Type} [DecidableEq α]

/-- Look up the value stored under key `k`. -/
def lookupKey (k : α) : List (α × β) → Option β
  | [] => none
  | (a, b) :: rest => if a = k then some b else lookupKey k rest

/-- Remove every row whose key is `k` (keys are unique in all uses). -/
def eraseKey (k : α) : List (α × β) → List (α × β)
  | [] => []
  | (a, b) :: rest => if a = k then eraseKey k rest else (a, b) :: eraseKey k rest

/-- Insert-or-replace the row under key `k` (SQL INSERT OR REPLACE). -/
def upsertKey (k : α) (v : β) (l : List (α × β)) : List (α × β) :=
  (k, v) :: eraseKey k l

end AssocList

/-! ### Package `store` (src/internal/config/config.go, store section) -/

namespace store

/-- Delivery instants are Unix seconds. -/
abbrev Time := Int

/-- RequestIDs are minted by `uuid.New`; the model draws them from a fresh
counter, which captures exactly the global-uniqueness contract. -/
abbrev RequestId := Nat

def StatusQueued : String := "queued"

def StatusSent : String := "sent"

def StatusFailed : String := "failed"

/-- A single push notification queued for delivery. -/
structure QueuedNotification where
  dataIDs : List (List Nat)
  requestID : RequestId
deriving Repr, DecidableEq

/-- Queued notifications for a single endpoint. -/
structure Batch where
  notifications : List QueuedNotification
  createdAt : Time
  flushAt : Time
deriving Repr, DecidableEq

/-- Delivery status of a request. -/
structure Status where
  state : String
  sentAt : Option Time
  error : String
  expiresAt : Time
deriving Repr, DecidableEq

/-- The two SQLite tables: `batches` (fcm_token PRIMARY KEY) and
`status` (request_id PRIMARY KEY). -/
structure StoreState where
  batches : List (String × Batch)
  statusRows : List (RequestId × Status)
deriving Repr, DecidableEq

/-- SaveBatch: INSERT OR REPLACE INTO batches under the token. -/
def SaveBatch (s : StoreState) (fcmToken : String) (batch : Batch) : StoreState :=
  { s with batches := upsertKey fcmToken batch s.batches }

/-- Insert one row into a list kept ordered by ascending `flush_at`. -/
def insertByFlushAt (p : String × Batch) : List (String × Batch) → List (String × Batch)
  | [] => [p]
  | q :: rest =>
    if p.2.flushAt ≤ q.2.flushAt then p :: q :: rest else q :: insertByFlushAt p rest

/-- Order rows by ascending `flush_at` (the ORDER BY of LoadOldestBatches). -/
def sortByFlushAt : List (String × Batch) → List (String × Batch)
  | [] => []
  | p :: rest => insertByFlushAt p (sortByFlushAt rest)

/-- LoadOldestBatches: SELECT ... ORDER BY flush_at ASC LIMIT `limit`.
No side effects. -/
def LoadOldestBatches (s : StoreState) (limit : Nat) : List (String × Batch) :=
  (sortByFlushAt s.batches).take limit

/-- The status-upsert loop of DeleteBatchAndSetStatus: one INSERT OR REPLACE
per contained notification, in list order. -/
def setStatusRows (rows : List (RequestId × Status)) (notifs : List QueuedNotification)
    (status : Status) : List (RequestId × Status) :=
  match notifs with
  | [] => rows
  | n :: rest => setStatusRows (upsertKey n.requestID status rows) rest status

/-- DeleteBatchAndSetStatus: atomically read the batch row's notifications,
delete the batch row, and upsert one status row per contained RequestID.
When no batch row exists the transaction is a successful no-op. -/
def DeleteBatchAndSetStatus (s : StoreState) (fcmToken : String) (status : Status) :
    StoreState :=
  match lookupKey fcmToken s.batches with
  | none => s
  | some row =>
    { batches := eraseKey fcmToken s.batches
      statusRows := setStatusRows s.statusRows row.notifications status }

/-- GetStatus: SELECT from the status table; `none` is the
"request not found" error. -/
def GetStatus (s : StoreState) (requestID : RequestId) : Option Status :=
  lookupKey requestID s.statusRows

/-- CleanupExpiredStatus: DELETE FROM status WHERE expires_at < now. -/
def CleanupExpiredStatus (s : StoreState) (now : Time) : StoreState :=
  { s with statusRows := s.statusRows.filter (fun p => ¬ p.2.expiresAt < now) }

end store

/-! ### Package `batcher` (src/internal/batcher/batcher.go) -/

namespace batcher

open store

/-- Batcher configuration (durations in seconds in this model). -/
structure Config where
  batchWindow : Time
  maxBatchSize : Int
  lockTimeout : Time
  statusRetention : Time
deriving Repr, DecidableEq

/-- Outcome of the per-endpoint lock acquisition race in `Queue`:
the `select` over the lock channel, the `lock_timeout` timer and the
caller's context. -/
inductive LockOutcome
  | acquired
  | timedOut
  | cancelled
deriving Repr, DecidableEq

/-- Result value of `Queue`: Go returns `(requestID, nil)` on success and
`("", err)` on failure, so an error carries an empty RequestID. -/
inductive QueueOutcome
  | ok (rid : RequestId)
  | errDeadlineExceeded
  | errCanceled
deriving Repr, DecidableEq

/-- Batcher state.  `batches` is the entry map (an entry's batch pointer may
be nil, modelled as `none`); `timers` is the set of endpoints with an active
flush timer; `sends` is the log of provider calls made so far, each carrying
the endpoint token and the concatenated payload; `nextId` is the fresh
RequestID supply. -/
structure BatcherState where
  batches : List (String × Option Batch)
  timers : List String
  stopped : Bool
  store : StoreState
  nextId : RequestId
  sends : List (String × List (List Nat))
deriving Repr, DecidableEq

/-- getOrCreateEntry: insert an empty entry when the token has none. -/
def getOrCreateEntry (st : BatcherState) (fcmToken : String) : BatcherState :=
  match lookupKey fcmToken st.batches with
  | some _ => st
  | none => { st with batches := upsertKey fcmToken none st.batches }

/-- The batch held by the in-memory entry for a token (none when the entry
is absent or its batch pointer is nil). -/
def entryBatch (st : BatcherState) (fcmToken : String) : Option Batch :=
  match lookupKey fcmToken st.batches with
  | some ob => ob
  | none => none

/-- startTimer: no-op when stopped; otherwise replace any existing timer. -/
def startTimer (st : BatcherState) (fcmToken : String) : BatcherState :=
  if st.stopped then st
  else { st with timers := st.timers.insert fcmToken }

/-- stopTimer: cancel and drop the endpoint's timer. -/
def stopTimer (st : BatcherState) (fcmToken : String) : BatcherState :=
  { st with timers := st.timers.erase fcmToken }

/-- Result of `Queue`: the new state, the returned value, and whether a
size-triggered asynchronous flush was spawned (`go b.flush`). -/
structure QueueResult where
  state : BatcherState
  result : QueueOutcome
  flushSpawned : Bool
deriving Repr, DecidableEq

/-- Queue: mint a RequestID, ensure the entry, race for the endpoint lock
(`lock` is the race's outcome), reject when stopped, append the
notification, persist (`saveFails` injects the store-write failure, after
which the code logs and proceeds with in-memory state), start the window
timer on first admission, and trigger an immediate flush at max size. -/
def Queue (cfg : Config) (st0 : BatcherState) (fcmToken : String)
    (dataIDs : List (List Nat)) (lock : LockOutcome) (now : Time)
    (saveFails : Bool) : QueueResult :=
  let requestID := st0.nextId
  let stE := getOrCreateEntry st0 fcmToken
  match lock with
  | .timedOut => ⟨{ stE with nextId := requestID + 1 }, .errDeadlineExceeded, false⟩
  | .cancelled => ⟨{ stE with nextId := requestID + 1 }, .errCanceled, false⟩
  | .acquired =>
    if stE.stopped then ⟨{ stE with nextId := requestID + 1 }, .errCanceled, false⟩
    else
      let old := entryBatch stE fcmToken
      let isNewBatch : Bool :=
        match old with
        | none => true
        | some b => b.notifications.length = 0
      let base : Batch :=
        match old with
        | none => { notifications := [], createdAt := now, flushAt := now + cfg.batchWindow }
        | some b => b
      let newBatch : Batch :=
        { base with notifications := base.notifications ++ [⟨dataIDs, requestID⟩] }
      let st2 := { stE with
                   batches := upsertKey fcmToken (some newBatch) stE.batches,
                   nextId := requestID + 1 }
      let st3 := if saveFails then st2
                 else { st2 with store := SaveBatch st2.store fcmToken newBatch }
      let st4 := if isNewBatch then startTimer st3 fcmToken else st3
      if cfg.maxBatchSize ≤ (newBatch.notifications.length : Int) then
        ⟨stopTimer st4 fcmToken, .ok requestID, true⟩
      else
        ⟨st4, .ok requestID, false⟩

/-- The batch value that an admitting `Queue` call installs for the
endpoint: the existing in-memory batch (or a fresh one opened at `now` with
`flush_at = now + window`) with the new notification appended, carrying the
minted RequestID. -/
def queuedBatch (cfg : Config) (st : BatcherState) (fcmToken : String)
    (dataIDs : List (List Nat)) (now : Time) : Batch :=
  let base : Batch :=
    match entryBatch st fcmToken with
    | none => { notifications := [], createdAt := now, flushAt := now + cfg.batchWindow }
    | some b => b
  { base with notifications := base.notifications ++ [⟨dataIDs, st.nextId⟩] }

/-- The terminal status computed by flushSync: `sent` with `sent_at = now`
when the provider call succeeded, `failed` carrying the adapter's error
string otherwise; either way it expires after the retention window. -/
def terminalStatus (cfg : Config) (now : Time) (sendError : Option String) : Status :=
  match sendError with
  | some e => { state := StatusFailed, sentAt := none, error := e,
                expiresAt := now + cfg.statusRetention }
  | none => { state := StatusSent, sentAt := some now, error := "",
              expiresAt := now + cfg.statusRetention }

/-- Concatenation of the content-identifier lists of a batch, in insertion
order (the `allDataIDs` accumulation loop). -/
def concatDataIDs : List QueuedNotification → List (List Nat)
  | [] => []
  | n :: rest => n.dataIDs ++ concatDataIDs rest

/-- flushSync: no-op when the entry is absent, its batch pointer is nil, or
the batch is empty; otherwise make exactly one provider call with the
concatenated payload (`sendError` is the adapter outcome), atomically delete
the batch row and publish the terminal status (`deleteFails` injects the
store failure, which is only logged), clear the in-memory batch and drop the
timer. -/
def flushSync (cfg : Config) (st : BatcherState) (fcmToken : String)
    (now : Time) (sendError : Option String) (deleteFails : Bool) : BatcherState :=
  match lookupKey fcmToken st.batches with
  | none => st
  | some ob =>
    match ob with
    | none => st
    | some b =>
      if b.notifications.length = 0 then st
      else
        let st1 := { st with sends := st.sends ++ [(fcmToken, concatDataIDs b.notifications)] }
        let status := terminalStatus cfg now sendError
        let st2 := if deleteFails then st1
                   else { st1 with store := DeleteBatchAndSetStatus st1.store fcmToken status }
        let st3 := { st2 with batches := upsertKey fcmToken none st2.batches }
        { st3 with timers := st3.timers.erase fcmToken }

/-- The `entry := getOrCreateEntry(tok); entry.batch = batch` step of
Recover: ensure the entry exists and install the loaded batch as its
in-memory batch. -/
def installBatch (st : BatcherState) (fcmToken : String) (b : Batch) : BatcherState :=
  { getOrCreateEntry st fcmToken with
    batches := upsertKey fcmToken (some b) (getOrCreateEntry st fcmToken).batches }

/-- One page of Recover's drain loop: for each loaded row, install it as the
entry's in-memory batch and flush it synchronously.  `sendErrOf` is the
provider outcome per endpoint. -/
def processPage (cfg : Config) (st : BatcherState) (page : List (String × Batch))
    (now : Time) (sendErrOf : String → Option String) : BatcherState :=
  match page with
  | [] => st
  | (tok, b) :: rest =>
    let st3 := flushSync cfg (installBatch st tok b) tok now (sendErrOf tok) false
    processPage cfg st3 rest now sendErrOf

/-- The page size constant of Recover. -/
def recoverPageSize : Nat := 100

/-- Recover's unbounded drain loop, made total with fuel; the Boolean
records whether the loop reached one of its `break` points (with enough
fuel it always does). -/
def recoverLoop (cfg : Config) (now : Time) (sendErrOf : String → Option String) :
    Nat → BatcherState → BatcherState × Bool
  | 0, st => (st, false)
  | fuel + 1, st =>
    let page := LoadOldestBatches st.store recoverPageSize
    if page.length = 0 then (st, true)
    else
      let st1 := processPage cfg st page now sendErrOf
      if page.length < recoverPageSize then (st1, true)
      else recoverLoop cfg now sendErrOf fuel st1

/-- Recover: drain the store at startup by repeatedly loading the oldest
page (100 rows) and flushing each loaded batch synchronously. -/
def Recover (cfg : Config) (fuel : Nat) (st : BatcherState) (now : Time)
    (sendErrOf : String → Option String) : BatcherState × Bool :=
  recoverLoop cfg now sendErrOf fuel st

/-- Batcher.GetStatus delegates to the store. -/
def GetStatus (st : BatcherState) (requestID : RequestId) : Option Status :=
  store.GetStatus st.store requestID

end batcher

/-! ### Package `config` (src/internal/config/config.go, config section).
Durations are Go `time.Duration` values, i.e. integer nanoseconds. -/

namespace config

def millisecond : Int := 1000000

def second : Int := 1000000000

def hour : Int := 3600 * second

structure ServerConfig where
  port : Int
  readTimeout : Int
  writeTimeout : Int
deriving Repr, DecidableEq

structure FirebaseConfig where
  credentialsFile : String
  projectID : String
deriving Repr, DecidableEq

structure OurCloudConfig where
  grpcAddress : String
deriving Repr, DecidableEq

structure BatchConfig where
  window : Int
  maxSize : Int
  storagePath : String
deriving Repr, DecidableEq

structure StatusConfig where
  retention : Int
deriving Repr, DecidableEq

structure Config where
  server : ServerConfig
  firebase : FirebaseConfig
  ourcloud : OurCloudConfig
  batch : BatchConfig
  status : StatusConfig
deriving Repr, DecidableEq

/-- setDefaults: fill each zero-valued field with its documented default.
`Load` is YAML parsing (an external collaborator; an absent key leaves the
Go zero value) followed by this function. -/
def setDefaults (c : Config) : Config :=
  let c := if c.server.port = 0 then { c with server.port := 8080 } else c
  let c := if c.server.readTimeout = 0
           then { c with server.readTimeout := 30 * second } else c
  let c := if c.server.writeTimeout = 0
           then { c with server.writeTimeout := 30 * second } else c
  let c := if c.ourcloud.grpcAddress = ""
           then { c with ourcloud.grpcAddress := "localhost:50051" } else c
  let c := if c.batch.window = 0 then { c with batch.window := 60 * second } else c
  let c := if c.batch.maxSize = 0 then { c with batch.maxSize := 100 } else c
  let c := if c.batch.storagePath = ""
           then { c with batch.storagePath := "/var/lib/pushserver/batches" } else c
  let c := if c.status.retention = 0 then { c with status.retention := hour } else c
  c

/-- The dotted YAML key paths recognised by `Load`, transcribed from the
struct tags of the configuration types. -/
def configYamlKeyPaths : List String :=
  ["server.port", "server.read_timeout", "server.write_timeout",
   "firebase.credentials_file", "firebase.project_id",
   "ourcloud.grpc_address",
   "batch.window", "batch.max_size", "batch.storage_path",
   "status.retention"]

end config

/-! ### Package `handler` (src/internal/handler/push.go) -/

namespace handler

/-- Error codes for PushResponse. -/
def ErrorCodeSuccess : Int := 0

def ErrorCodeNoEndpoints : Int := 1

def ErrorCodeNoConsent : Int := 2

def ErrorCodeSignatureFailed : Int := 3

def ErrorCodeInvalidRequest : Int := 4

/-- The semantic fields of the inbound protobuf PushRequest. -/
structure PushRequest where
  senderUsername : String
  targetUsername : String
  targetNodeIds : List (List Nat)
  timestamp : Int
  dataIds : List (List Nat)
  signature : List Nat
deriving Repr, DecidableEq

/-- An inbound HTTP request as the handler observes it: the Content-Type
header, whether reading the body fails, the raw body bytes, and the outcome
of `proto.Unmarshal` on that body (the protobuf codec is an external
collaborator, so its verdict is an oracle field). -/
structure HttpRequest where
  contentType : String
  readFails : Bool
  body : List Nat
  decoded : Option PushRequest
deriving Repr, DecidableEq

/-- The metadata client seen through the `OurCloudClient` interface: each
operation returns `none` for an error and `some r` for a clean result. -/
structure MetaClient where
  verifyPushRequest : PushRequest → Option Bool
  hasConsent : String → String → Option Bool
  getEndpoints : String → Option (List String)

/-- PushResponse as written by `writeResponse`. -/
structure PushResponse where
  accepted : Bool
  requestId : String
  errorCode : Int
  message : String
deriving Repr, DecidableEq

/-- The steps of the validation pipeline, used to record which steps a
request actually entered. -/
inductive PipelineStep
  | parseStep
  | validateStep
  | verifyStep
  | consentStep
  | endpointsStep
  | admitStep
deriving Repr, DecidableEq

/-- Everything observable about one `HandlePush` invocation: the response,
the HTTP status chosen by `writeResponse`, the pipeline steps entered in
order, and the Batching Engine `queue` invocations made. -/
structure HandleResult where
  resp : PushResponse
  httpStatus : Nat
  stepsRun : List PipelineStep
  queueCalls : List (String × List (List Nat))
deriving Repr, DecidableEq

/-- parseRequest: require a protobuf content type, a readable non-empty
body, and a successful protobuf decode. -/
def parseRequest (r : HttpRequest) : Option PushRequest :=
  if r.contentType ≠ "application/x-protobuf" ∧ r.contentType ≠ "application/protobuf"
  then none
  else if r.readFails then none
  else if r.body.length = 0 then none
  else r.decoded

/-- validateRequest: sender present, target present (username or node-id
list), signature present. -/
def validateRequest (req : PushRequest) : Bool :=
  if req.senderUsername = "" then false
  else if req.targetUsername = "" ∧ req.targetNodeIds.length = 0 then false
  else if req.signature.length = 0 then false
  else true

/-- The status-code switch of `writeResponse`. -/
def writeResponseStatus (errorCode : Int) : Nat :=
  if errorCode = ErrorCodeSuccess then 200
  else if errorCode = ErrorCodeInvalidRequest then 400
  else if errorCode = ErrorCodeSignatureFailed then 401
  else if errorCode = ErrorCodeNoConsent then 403
  else if errorCode = ErrorCodeNoEndpoints then 404
  else 500

/-- Build the result for a response, running it through the
`writeResponse` status mapping. -/
def mkResult (resp : PushResponse) (steps : List PipelineStep)
    (queueCalls : List (String × List (List Nat))) : HandleResult :=
  { resp := resp, httpStatus := writeResponseStatus resp.errorCode,
    stepsRun := steps, queueCalls := queueCalls }

/-- HandlePush: the fixed-order validation pipeline over one POST /push
request.  `newUuid` is the RequestID minted by `uuid.New().String()`.
Step 5 of the source only mints the RequestID and returns success; it makes
no Batching Engine call (the `queueCalls` log stays empty). -/
def HandlePush (client : MetaClient) (r : HttpRequest) (newUuid : String) : HandleResult :=
  match parseRequest r with
  | none =>
    mkResult { accepted := false, requestId := "",
               errorCode := ErrorCodeInvalidRequest,
               message := "failed to parse request" }
      [.parseStep] []
  | some req =>
    if validateRequest req = false then
      mkResult { accepted := false, requestId := "",
                 errorCode := ErrorCodeInvalidRequest,
                 message := "validation failed" }
        [.parseStep, .validateStep] []
    else
      match client.verifyPushRequest req with
      | some true =>
        match client.hasConsent req.targetUsername req.senderUsername with
        | some true =>
          match client.getEndpoints req.targetUsername with
          | some endpoints =>
            if endpoints.length = 0 then
              mkResult { accepted := false, requestId := "",
                         errorCode := ErrorCodeNoEndpoints,
                         message := "no endpoints registered" }
                [.parseStep, .validateStep, .verifyStep, .consentStep, .endpointsStep] []
            else
              mkResult { accepted := true, requestId := newUuid,
                         errorCode := ErrorCodeSuccess, message := "" }
                [.parseStep, .validateStep, .verifyStep, .consentStep,
                 .endpointsStep, .admitStep] []
          | none =>
            mkResult { accepted := false, requestId := "",
                       errorCode := ErrorCodeNoEndpoints,
                       message := "no endpoints registered" }
              [.parseStep, .validateStep, .verifyStep, .consentStep, .endpointsStep] []
        | _ =>
          mkResult { accepted := false, requestId := "",
                     errorCode := ErrorCodeNoConsent,
                     message := "sender not in consent list" }
            [.parseStep, .validateStep, .verifyStep, .consentStep] []
      | _ =>
        mkResult { accepted := false, requestId := "",
                   errorCode := ErrorCodeSignatureFailed,
                   message := "signature verification failed" }
          [.parseStep, .validateStep, .verifyStep] []

end handler

/-! ### Lemmas about the association-list helpers -/

section AssocLemmas

variable {α β : Type} [DecidableEq α]

theorem lookupKey_eraseKey_self (k : α) (l : List (α × β)) :
    lookupKey k (eraseKey k l) = none := by
  induction l with
  | nil => rfl
  | cons p rest ih =>
    obtain ⟨a, b⟩ := p
    by_cases h : a = k
    · simp [eraseKey, h, ih]
    · simp [eraseKey, lookupKey, h, ih]

theorem lookupKey_eraseKey_ne (h : k ≠ k') (l : List (α × β)) :
    lookupKey k (eraseKey k' l) = lookupKey k l := by
  have h2 : k' ≠ k := h.symm
  induction l with
  | nil => rfl
  | cons p rest ih =>
    obtain ⟨a, b⟩ := p
    by_cases ha : a = k'
    · simp [eraseKey, ha, lookupKey, h2, ih]
    · simp only [eraseKey, if_neg ha, lookupKey]
      by_cases hak : a = k
      · simp [hak]
      · simp [hak, ih]

theorem lookupKey_upsertKey_self (k : α) (v : β) (l : List (α × β)) :
    lookupKey k (upsertKey k v l) = some v := by
  simp [upsertKey, lookupKey]

theorem lookupKey_upsertKey_ne (h : k ≠ k') (v : β) (l : List (α × β)) :
    lookupKey k (upsertKey k' v l) = lookupKey k l := by
  have h2 : k' ≠ k := h.symm
  simp [upsertKey, lookupKey, h2, lookupKey_eraseKey_ne h]

theorem eraseKey_sublist (k : α) (l : List (α × β)) : List.Sublist (eraseKey k l) l := by
  induction l with
  | nil => exact List.Sublist.refl _
  | cons p rest ih =>
    obtain ⟨a, b⟩ := p
    by_cases h : a = k
    · simpa [eraseKey, h] using ih.cons (a, b)
    · simpa [eraseKey, h] using ih.cons₂ (a, b)

theorem mem_of_mem_eraseKey {p : α × β} {k : α} {l : List (α × β)}
    (h : p ∈ eraseKey k l) : p ∈ l :=
  (eraseKey_sublist k l).subset h

theorem nodup_keys_eraseKey {k : α} {l : List (α × β)}
    (h : (l.map Prod.fst).Nodup) : ((eraseKey k l).map Prod.fst).Nodup :=
  ((eraseKey_sublist k l).map Prod.fst).nodup h

theorem eraseKey_of_not_mem_keys {k : α} {l : List (α × β)}
    (h : k ∉ l.map Prod.fst) : eraseKey k l = l := by
  induction l with
  | nil => rfl
  | cons p rest ih =>
    obtain ⟨a, b⟩ := p
    simp only [List.map_cons, List.mem_cons] at h
    push_neg at h
    have ha : a ≠ k := fun hk => h.1 hk.symm
    simp [eraseKey, ha, ih h.2]

theorem lookupKey_eq_none_of_forall {k : α} {l : List (α × β)}
    (h : ∀ p ∈ l, p.1 ≠ k) : lookupKey k l = none := by
  induction l with
  | nil => rfl
  | cons p rest ih =>
    obtain ⟨a, b⟩ := p
    have ha : a ≠ k := h (a, b) (List.mem_cons_self _ _)
    simp only [lookupKey, if_neg ha]
    exact ih (fun q hq => h q (List.mem_cons_of_mem _ hq))

theorem perm_cons_eraseKey {k : α} {v : β} {l : List (α × β)}
    (hnd : (l.map Prod.fst).Nodup) (h : lookupKey k l = some v) :
    l.Perm ((k, v) :: eraseKey k l) := by
  induction l with
  | nil => simp [lookupKey] at h
  | cons p rest ih =>
    obtain ⟨a, b⟩ := p
    simp only [List.map_cons, List.nodup_cons] at hnd
    by_cases ha : a = k
    · subst ha
      have hb : b = v := by simpa [lookupKey] using h
      subst hb
      rw [show eraseKey a ((a, b) :: rest) = eraseKey a rest by simp [eraseKey]]
      rw [eraseKey_of_not_mem_keys hnd.1]
    · simp only [lookupKey, if_neg ha] at h
      have hrec := ih hnd.2 h
      have hstep : ((a, b) :: rest).Perm ((a, b) :: (k, v) :: eraseKey k rest) :=
        hrec.cons (a, b)
      have hswap : ((a, b) :: (k, v) :: eraseKey k rest).Perm
          ((k, v) :: (a, b) :: eraseKey k rest) := List.Perm.swap _ _ _
      have : eraseKey k ((a, b) :: rest) = (a, b) :: eraseKey k rest := by
        simp [eraseKey, ha]
      rw [this]
      exact hstep.trans hswap

end AssocLemmas

/-! ### Lemmas about the store operations -/

namespace store

theorem lookupKey_setStatusRows (rows : List (RequestId × Status))
    (notifs : List QueuedNotification) (status : Status) (rid : RequestId) :
    lookupKey rid (setStatusRows rows notifs status) =
      if rid ∈ notifs.map QueuedNotification.requestID
      then some status else lookupKey rid rows := by
  induction notifs generalizing rows with
  | nil => simp [setStatusRows]
  | cons n rest ih =>
    simp only [setStatusRows, ih, List.map_cons, List.mem_cons]
    by_cases hrest : rid ∈ rest.map QueuedNotification.requestID
    · simp [hrest]
    · by_cases heq : rid = n.requestID
      · simp [hrest, heq, lookupKey_upsertKey_self]
      · simp [hrest, heq, lookupKey_upsertKey_ne heq]

end store

theorem lookupKey_of_mem_nodup {α β : Type} [DecidableEq α] {l : List (α × β)}
    (hnd : (l.map Prod.fst).Nodup) {p : α × β} (hp : p ∈ l) :
    lookupKey p.1 l = some p.2 := by
  induction l with
  | nil => cases hp
  | cons q rest ih =>
    simp only [List.map_cons, List.nodup_cons] at hnd
    rcases List.mem_cons.mp hp with h | h
    · subst h
      simp [lookupKey]
    · have hne : q.1 ≠ p.1 := by
        intro he
        exact hnd.1 (he ▸ List.mem_map_of_mem Prod.fst h)
      simp only [lookupKey, if_neg hne]
      exact ih hnd.2 h

namespace store

theorem insertByFlushAt_perm (p : String × Batch) (l : List (String × Batch)) :
    (insertByFlushAt p l).Perm (p :: l) := by
  induction l with
  | nil => exact List.Perm.refl _
  | cons q rest ih =>
    unfold insertByFlushAt
    split
    · exact List.Perm.refl _
    · exact (ih.cons q).trans (List.Perm.swap p q rest)

theorem sortByFlushAt_perm (l : List (String × Batch)) :
    (sortByFlushAt l).Perm l := by
  induction l with
  | nil => exact List.Perm.refl _
  | cons p rest ih => exact (insertByFlushAt_perm p _).trans (ih.cons p)

end store

/-! ### Lemmas about the batcher operations -/

namespace batcher

open store

theorem getOrCreateEntry_fields (st : BatcherState) (e : String) :
    (getOrCreateEntry st e).timers = st.timers ∧
    (getOrCreateEntry st e).stopped = st.stopped ∧
    (getOrCreateEntry st e).store = st.store ∧
    (getOrCreateEntry st e).nextId = st.nextId ∧
    (getOrCreateEntry st e).sends = st.sends := by
  unfold getOrCreateEntry
  cases h : lookupKey e st.batches <;> simp

theorem entryBatch_getOrCreateEntry (st : BatcherState) (e tok : String) :
    entryBatch (getOrCreateEntry st e) tok = entryBatch st tok := by
  unfold getOrCreateEntry
  cases h : lookupKey e st.batches with
  | some ob => rfl
  | none =>
    by_cases ht : tok = e
    · subst ht
      simp [entryBatch, lookupKey_upsertKey_self, h]
    · simp [entryBatch, lookupKey_upsertKey_ne ht]

theorem flushSync_noEntry {st : BatcherState} {tok : String} (cfg : Config)
    (now : Time) (r : Option String) (d : Bool)
    (hm : lookupKey tok st.batches = none) :
    flushSync cfg st tok now r d = st := by
  simp [flushSync, hm]

theorem flushSync_nilBatch {st : BatcherState} {tok : String} (cfg : Config)
    (now : Time) (r : Option String) (d : Bool)
    (hm : lookupKey tok st.batches = some none) :
    flushSync cfg st tok now r d = st := by
  simp [flushSync, hm]

theorem flushSync_emptyBatch {st : BatcherState} {tok : String} {b : Batch} (cfg : Config)
    (now : Time) (r : Option String) (d : Bool)
    (hm : lookupKey tok st.batches = some (some b))
    (hb : b.notifications = []) :
    flushSync cfg st tok now r d = st := by
  simp [flushSync, hm, hb]

theorem flushSync_active {st : BatcherState} {tok : String} {b : Batch} (cfg : Config)
    (now : Time) (r : Option String) (d : Bool)
    (hm : lookupKey tok st.batches = some (some b))
    (hne : b.notifications ≠ []) :
    flushSync cfg st tok now r d =
      { batches := upsertKey tok none st.batches
        timers := st.timers.erase tok
        stopped := st.stopped
        store := if d then st.store
                 else DeleteBatchAndSetStatus st.store tok (terminalStatus cfg now r)
        nextId := st.nextId
        sends := st.sends ++ [(tok, concatDataIDs b.notifications)] } := by
  have hlen : ¬ b.notifications.length = 0 := by
    simpa [List.length_eq_zero] using hne
  cases d <;> simp [flushSync, hm, hlen]

theorem startTimer_fields (st : BatcherState) (e : String) :
    (startTimer st e).batches = st.batches ∧ (startTimer st e).store = st.store ∧
    (startTimer st e).nextId = st.nextId ∧ (startTimer st e).sends = st.sends := by
  unfold startTimer
  split <;> simp

theorem Queue_acquired_spec (cfg : Config) (st : BatcherState) (e : String)
    (ids : List (List Nat)) (now : Time) (sf : Bool)
    (hstop : st.stopped = false) :
    (Queue cfg st e ids .acquired now sf).result = .ok st.nextId ∧
    (Queue cfg st e ids .acquired now sf).state.store
      = (if sf then st.store else SaveBatch st.store e (queuedBatch cfg st e ids now)) ∧
    lookupKey e (Queue cfg st e ids .acquired now sf).state.batches
      = some (some (queuedBatch cfg st e ids now)) ∧
    (Queue cfg st e ids .acquired now sf).state.store.statusRows
      = st.store.statusRows ∧
    (Queue cfg st e ids .acquired now sf).state.stopped = false ∧
    (Queue cfg st e ids .acquired now sf).state.nextId = st.nextId + 1 := by
  obtain ⟨hgt, hgs, hgst, hgn, hgsd⟩ := getOrCreateEntry_fields st e
  have hstop1 : (getOrCreateEntry st e).stopped = false := hgs.trans hstop
  have hEB : entryBatch (getOrCreateEntry st e) e = entryBatch st e :=
    entryBatch_getOrCreateEntry st e e
  simp only [Queue, hstop1, Bool.false_eq_true, if_false, hEB, queuedBatch]
  cases sf <;> cases hE : entryBatch st e <;>
    · simp only []
      split <;> split <;>
        simp [stopTimer, startTimer, SaveBatch, hgst, hgn, hstop1,
          lookupKey_upsertKey_self, hE]

/-- The provider payload of one batch row: the endpoint token paired with the
concatenation of its content-identifier lists in insertion order. -/
def rowPayload (p : String × Batch) : String × List (List Nat) :=
  (p.1, concatDataIDs p.2.notifications)

/-- One step of Recover's page loop: installing a loaded row as the
in-memory batch and flushing it appends exactly its payload to the send log
and deletes exactly its row from the store. -/
theorem recoverFlushOne (cfg : Config) (now : Time) (r : Option String)
    (st : BatcherState) (tok : String) (bb : Batch)
    (hne : bb.notifications ≠ [])
    (hrow : lookupKey tok st.store.batches = some bb) :
    (flushSync cfg (installBatch st tok bb) tok now r false).sends
      = st.sends ++ [(tok, concatDataIDs bb.notifications)] ∧
    (flushSync cfg (installBatch st tok bb) tok now r false).store.batches
      = eraseKey tok st.store.batches := by
  obtain ⟨hgt, hgs, hgst, hgn, hgsd⟩ := getOrCreateEntry_fields st tok
  have hm2 : lookupKey tok (installBatch st tok bb).batches = some (some bb) := by
    unfold installBatch
    exact lookupKey_upsertKey_self tok (some bb) _
  constructor <;> rw [flushSync_active cfg now r false hm2 hne] <;>
    simp [installBatch, hgst, hgsd, DeleteBatchAndSetStatus, hrow]

theorem processPage_spec (cfg : Config) (now : Time) (f : String → Option String) :
    ∀ (page : List (String × Batch)) (st : BatcherState),
    (page.map Prod.fst).Nodup →
    (∀ p ∈ page, lookupKey p.1 st.store.batches = some p.2) →
    (∀ p ∈ page, p.2.notifications ≠ []) →
    (st.store.batches.map Prod.fst).Nodup →
    (processPage cfg st page now f).sends = st.sends ++ page.map rowPayload ∧
    st.store.batches.Perm (page ++ (processPage cfg st page now f).store.batches) ∧
    ((processPage cfg st page now f).store.batches.map Prod.fst).Nodup ∧
    (∀ q ∈ (processPage cfg st page now f).store.batches, q ∈ st.store.batches) := by
  intro page
  induction page with
  | nil =>
    intro st hpk hlk hpe hsk
    exact ⟨by simp [processPage], by simp [processPage], hsk, fun q hq => hq⟩
  | cons hd rest ih =>
    obtain ⟨tok, bb⟩ := hd
    intro st hpk hlk hpe hsk
    have hne : bb.notifications ≠ [] := hpe (tok, bb) (List.mem_cons_self _ _)
    have hrow : lookupKey tok st.store.batches = some bb :=
      hlk (tok, bb) (List.mem_cons_self _ _)
    have hkeys : tok ∉ rest.map Prod.fst ∧ (rest.map Prod.fst).Nodup := by
      rw [List.map_cons] at hpk
      exact List.nodup_cons.mp hpk
    obtain ⟨hsends, hbatches⟩ := recoverFlushOne cfg now (f tok) st tok bb hne hrow
    set st3 := flushSync cfg (installBatch st tok bb) tok now (f tok) false with hst3
    have hstep : processPage cfg st ((tok, bb) :: rest) now f
        = processPage cfg st3 rest now f := by
      simp only [processPage]
    rw [hstep]
    have hlk3 : ∀ p ∈ rest, lookupKey p.1 st3.store.batches = some p.2 := by
      intro p hp
      have hne2 : p.1 ≠ tok := by
        intro he
        exact hkeys.1 (he ▸ List.mem_map_of_mem Prod.fst hp)
      rw [hbatches, lookupKey_eraseKey_ne hne2]
      exact hlk p (List.mem_cons_of_mem _ hp)
    have hpe3 : ∀ p ∈ rest, p.2.notifications ≠ [] :=
      fun p hp => hpe p (List.mem_cons_of_mem _ hp)
    have hsk3 : (st3.store.batches.map Prod.fst).Nodup := by
      rw [hbatches]
      exact nodup_keys_eraseKey hsk
    obtain ⟨ihS, ihP, ihN, ihM⟩ := ih st3 hkeys.2 hlk3 hpe3 hsk3
    refine ⟨?_, ?_, ihN, ?_⟩
    · rw [ihS, hsends, List.append_assoc]
      rfl
    · have h1 : st.store.batches.Perm ((tok, bb) :: eraseKey tok st.store.batches) :=
        perm_cons_eraseKey hsk hrow
      have h2 := ihP
      rw [hbatches] at h2
      exact h1.trans (h2.cons (tok, bb))
    · intro q hq
      have hq2 := ihM q hq
      rw [hbatches] at hq2
      exact mem_of_mem_eraseKey hq2

theorem recoverLoop_spec (cfg : Config) (now : Time) (f : String → Option String) :
    ∀ (fuel : Nat) (st : BatcherState),
    (st.store.batches.map Prod.fst).Nodup →
    (∀ p ∈ st.store.batches, p.2.notifications ≠ []) →
    st.store.batches.length < fuel →
    (recoverLoop cfg now f fuel st).2 = true ∧
    (recoverLoop cfg now f fuel st).1.store.batches = [] ∧
    ∃ L, (recoverLoop cfg now f fuel st).1.sends = st.sends ++ L ∧
      L.Perm (st.store.batches.map rowPayload) := by
  intro fuel
  induction fuel with
  | zero =>
    intro st _ _ hlen
    exact absurd hlen (Nat.not_lt_zero _)
  | succ fuel ih =>
    intro st hsk hne hlen
    have hsp : (sortByFlushAt st.store.batches).Perm st.store.batches :=
      sortByFlushAt_perm _
    have hplen : (LoadOldestBatches st.store recoverPageSize).length
        = min recoverPageSize st.store.batches.length := by
      simp [LoadOldestBatches, hsp.length_eq]
    by_cases hpage0 : (LoadOldestBatches st.store recoverPageSize).length = 0
    · have hn : st.store.batches.length = 0 := by
        rw [hplen] at hpage0
        have : (0 : Nat) < recoverPageSize := by
          simp [recoverPageSize]
        omega
      have hbe : st.store.batches = [] := List.length_eq_zero.mp hn
      refine ⟨?_, ?_, [], ?_, ?_⟩ <;> simp [recoverLoop, hpage0, hbe]
    · have hpsub : List.Sublist (LoadOldestBatches st.store recoverPageSize)
          (sortByFlushAt st.store.batches) := List.take_sublist _ _
      have hsortk : ((sortByFlushAt st.store.batches).map Prod.fst).Nodup :=
        ((hsp.map Prod.fst).nodup_iff).mpr hsk
      have hpk : ((LoadOldestBatches st.store recoverPageSize).map Prod.fst).Nodup :=
        ((hpsub.map Prod.fst).nodup hsortk)
      have hpmem : ∀ p ∈ LoadOldestBatches st.store recoverPageSize,
          p ∈ st.store.batches :=
        fun p hp => hsp.subset (hpsub.subset hp)
      have hplk : ∀ p ∈ LoadOldestBatches st.store recoverPageSize,
          lookupKey p.1 st.store.batches = some p.2 :=
        fun p hp => lookupKey_of_mem_nodup hsk (hpmem p hp)
      have hppe : ∀ p ∈ LoadOldestBatches st.store recoverPageSize,
          p.2.notifications ≠ [] :=
        fun p hp => hne p (hpmem p hp)
      obtain ⟨hs1, hperm1, hnd1, hmem1⟩ := processPage_spec cfg now f
        (LoadOldestBatches st.store recoverPageSize) st hpk hplk hppe hsk
      set st1 := processPage cfg st (LoadOldestBatches st.store recoverPageSize) now f
        with hst1
      have hlen1 : st.store.batches.length
          = (LoadOldestBatches st.store recoverPageSize).length
            + st1.store.batches.length := by
        have := hperm1.length_eq
        simpa using this
      by_cases hlt : (LoadOldestBatches st.store recoverPageSize).length
          < recoverPageSize
      · have h0 : st1.store.batches.length = 0 := by
          rw [hplen] at hlt
          omega
        have hb0 : st1.store.batches = [] := List.length_eq_zero.mp h0
        have hloop : recoverLoop cfg now f (fuel + 1) st
            = (st1, true) := by
          rw [hst1]
          simp [recoverLoop, hpage0, hlt]
        rw [hloop]
        refine ⟨rfl, hb0,
          (LoadOldestBatches st.store recoverPageSize).map rowPayload, hs1, ?_⟩
        have hperm2 := hperm1
        rw [hb0, List.append_nil] at hperm2
        exact (hperm2.map rowPayload).symm
      · have hfull : (LoadOldestBatches st.store recoverPageSize).length
            = recoverPageSize := by
          rw [hplen] at hlt ⊢
          omega
        have hlen2 : st1.store.batches.length < fuel := by
          have hps : (0 : Nat) < recoverPageSize := by
            simp [recoverPageSize]
          omega
        have hne1 : ∀ p ∈ st1.store.batches, p.2.notifications ≠ [] :=
          fun p hp => hne p (hmem1 p hp)
        obtain ⟨ihZ, ihB, L2, ihS, ihP⟩ := ih st1 hnd1 hne1 hlen2
        have hloop : recoverLoop cfg now f (fuel + 1) st
            = recoverLoop cfg now f fuel st1 := by
          rw [hst1]
          simp [recoverLoop, hpage0, hlt]
        rw [hloop]
        refine ⟨ihZ, ihB,
          (LoadOldestBatches st.store recoverPageSize).map rowPayload ++ L2, ?_, ?_⟩
        · rw [ihS, hs1, List.append_assoc]
        · have h1 : ((LoadOldestBatches st.store recoverPageSize).map rowPayload
              ++ L2).Perm
              ((LoadOldestBatches st.store recoverPageSize).map rowPayload
              ++ st1.store.batches.map rowPayload) :=
            List.Perm.append_left _ ihP
          have h2 : (LoadOldestBatches st.store recoverPageSize).map rowPayload
              ++ st1.store.batches.map rowPayload
              = ((LoadOldestBatches st.store recoverPageSize)
                 ++ st1.store.batches).map rowPayload :=
            (List.map_append _ _ _).symm
          have h3 : (((LoadOldestBatches st.store recoverPageSize)
              ++ st1.store.batches).map rowPayload).Perm
              (st.store.batches.map rowPayload) :=
            (hperm1.symm).map rowPayload
          exact h1.trans (h2 ▸ h3)

end batcher

/-! ### Claim theorems -/

open store batcher handler config

/-- Claim C4: `DeleteBatchAndSetStatus` atomically reads the stored batch's
notifications, deletes the batch row, and upserts one status row per
contained RequestID carrying exactly the provided status; when no batch row
exists for the endpoint it succeeds and leaves both tables unchanged. -/
theorem c4_delete_batch_and_set_status (s : StoreState) (e : String) (status : Status) :
    (lookupKey e s.batches = none → DeleteBatchAndSetStatus s e status = s) ∧
    (∀ row : Batch, lookupKey e s.batches = some row →
      (DeleteBatchAndSetStatus s e status).batches = eraseKey e s.batches ∧
      lookupKey e (DeleteBatchAndSetStatus s e status).batches = none ∧
      (∀ n ∈ row.notifications,
        lookupKey n.requestID (DeleteBatchAndSetStatus s e status).statusRows
          = some status) ∧
      (∀ rid : RequestId, rid ∉ row.notifications.map QueuedNotification.requestID →
        lookupKey rid (DeleteBatchAndSetStatus s e status).statusRows
          = lookupKey rid s.statusRows)) := by
  constructor
  · intro hm
    simp [DeleteBatchAndSetStatus, hm]
  · intro row hm
    refine ⟨by simp [DeleteBatchAndSetStatus, hm], ?_, ?_, ?_⟩
    · simp [DeleteBatchAndSetStatus, hm, lookupKey_eraseKey_self]
    · intro n hn
      have hmem : n.requestID ∈ row.notifications.map QueuedNotification.requestID :=
        List.mem_map_of_mem _ hn
      simp [DeleteBatchAndSetStatus, hm, lookupKey_setStatusRows, hmem]
    · intro rid hrid
      simp [DeleteBatchAndSetStatus, hm, lookupKey_setStatusRows, hrid]

/-- Witness for C4: on a store holding one batch for endpoint `e` with a
single notification (RequestID 7), the operation publishes exactly the
provided status under RequestID 7. -/
theorem c4_witness :
    lookupKey 7 ((DeleteBatchAndSetStatus
      ⟨[("e", ⟨[⟨[[1, 2, 3]], 7⟩], 0, 60⟩)], []⟩ "e"
      ⟨StatusSent, some 9, "", 3609⟩).statusRows)
      = some ⟨StatusSent, some 9, "", 3609⟩ :=
  ((c4_delete_batch_and_set_status
      ⟨[("e", ⟨[⟨[[1, 2, 3]], 7⟩], 0, 60⟩)], []⟩ "e"
      ⟨StatusSent, some 9, "", 3609⟩).2
    ⟨[⟨[[1, 2, 3]], 7⟩], 0, 60⟩ (by simp [lookupKey])).2.2.1
    ⟨[[1, 2, 3]], 7⟩ (by simp)

/-- Claim C7: when `Queue` loses the lock race — `lock_timeout` elapses or
the caller's context is cancelled — it returns the corresponding error with
an empty RequestID (the error constructors carry no id), spawns no flush,
and admits nothing: the store, the provider-call log, the timers and every
entry's in-memory batch are unchanged. -/
theorem c7_queue_lock_failures (cfg : batcher.Config) (st : BatcherState) (e : String)
    (ids : List (List Nat)) (now : Time) (sf : Bool) :
    ((Queue cfg st e ids .timedOut now sf).result = .errDeadlineExceeded ∧
     (Queue cfg st e ids .timedOut now sf).flushSpawned = false ∧
     (Queue cfg st e ids .timedOut now sf).state.store = st.store ∧
     (Queue cfg st e ids .timedOut now sf).state.sends = st.sends ∧
     (Queue cfg st e ids .timedOut now sf).state.timers = st.timers ∧
     (∀ tok, entryBatch (Queue cfg st e ids .timedOut now sf).state tok
       = entryBatch st tok)) ∧
    ((Queue cfg st e ids .cancelled now sf).result = .errCanceled ∧
     (Queue cfg st e ids .cancelled now sf).flushSpawned = false ∧
     (Queue cfg st e ids .cancelled now sf).state.store = st.store ∧
     (Queue cfg st e ids .cancelled now sf).state.sends = st.sends ∧
     (Queue cfg st e ids .cancelled now sf).state.timers = st.timers ∧
     (∀ tok, entryBatch (Queue cfg st e ids .cancelled now sf).state tok
       = entryBatch st tok)) := by
  obtain ⟨ht, hs, hst, hn, hsd⟩ := getOrCreateEntry_fields st e
  refine ⟨⟨rfl, rfl, hst, hsd, ht, ?_⟩, ⟨rfl, rfl, hst, hsd, ht, ?_⟩⟩ <;>
    · intro tok
      show entryBatch { getOrCreateEntry st e with nextId := st.nextId + 1 } tok
        = entryBatch st tok
      rw [show entryBatch { getOrCreateEntry st e with nextId := st.nextId + 1 } tok
        = entryBatch (getOrCreateEntry st e) tok from rfl]
      exact entryBatch_getOrCreateEntry st e tok

/-- Claim C10: flushing an endpoint with no entry, a nil batch pointer or an
empty notification list changes nothing — no provider call, no store write,
no state change — and `flushSync` is idempotent, so a timer that fires after
a size-triggered flush has drained the batch causes no duplicate delivery. -/
theorem c10_flush_noop_and_idempotent (cfg : batcher.Config) (st : BatcherState) (e : String)
    (n1 n2 : Time) (r1 r2 : Option String) (d1 d2 : Bool) :
    (lookupKey e st.batches = none → flushSync cfg st e n1 r1 d1 = st) ∧
    (lookupKey e st.batches = some none → flushSync cfg st e n1 r1 d1 = st) ∧
    (∀ b : Batch, lookupKey e st.batches = some (some b) → b.notifications = [] →
      flushSync cfg st e n1 r1 d1 = st) ∧
    flushSync cfg (flushSync cfg st e n1 r1 d1) e n2 r2 d2
      = flushSync cfg st e n1 r1 d1 := by
  refine ⟨fun hm => flushSync_noEntry cfg n1 r1 d1 hm,
    fun hm => flushSync_nilBatch cfg n1 r1 d1 hm,
    fun b hm hb => flushSync_emptyBatch cfg n1 r1 d1 hm hb, ?_⟩
  cases hm : lookupKey e st.batches with
  | none =>
    rw [flushSync_noEntry cfg n1 r1 d1 hm, flushSync_noEntry cfg n2 r2 d2 hm]
  | some ob =>
    cases ob with
    | none =>
      rw [flushSync_nilBatch cfg n1 r1 d1 hm, flushSync_nilBatch cfg n2 r2 d2 hm]
    | some b =>
      by_cases hb : b.notifications = []
      · rw [flushSync_emptyBatch cfg n1 r1 d1 hm hb,
          flushSync_emptyBatch cfg n2 r2 d2 hm hb]
      · rw [flushSync_active cfg n1 r1 d1 hm hb]
        exact flushSync_nilBatch cfg n2 r2 d2 (lookupKey_upsertKey_self e none _)

/-- Witness for C10: flushing an endpoint with no entry at all leaves the
initial state untouched. -/
theorem c10_witness :
    flushSync ⟨60, 100, 0, 3600⟩ ⟨[], [], false, ⟨[], []⟩, 0, []⟩ "e" 5 none false
      = ⟨[], [], false, ⟨[], []⟩, 0, []⟩ :=
  (c10_flush_noop_and_idempotent ⟨60, 100, 0, 3600⟩ ⟨[], [], false, ⟨[], []⟩, 0, []⟩
    "e" 5 0 none none false false).1 rfl

/-- Claim C9 counterexample: `batch.lock_timeout` is not among the YAML key
paths recognised by the configuration loader (the `BatchConfig` struct has
no such field), so `Load` cannot fill a 100 ms default for it. -/
theorem c9_counterexample :
    ¬ ("batch.lock_timeout" ∈ config.configYamlKeyPaths) := by
  decide

/-- Claim C9 (amended): for every configuration in which a recognised key is
absent or zero-valued, `setDefaults` (the defaulting phase of `Load`) fills
the documented default — port 8080, read/write timeouts 30 s,
grpc address localhost:50051, batch window 60 s, batch max size 100,
storage path /var/lib/pushserver/batches, status retention 1 h — and
touches nothing else; `batch.lock_timeout` is not a configuration key. -/
theorem c9_amended_defaults (c : config.Config) :
    (setDefaults c).server.port = (if c.server.port = 0 then 8080 else c.server.port) ∧
    (setDefaults c).server.readTimeout =
      (if c.server.readTimeout = 0 then 30 * second else c.server.readTimeout) ∧
    (setDefaults c).server.writeTimeout =
      (if c.server.writeTimeout = 0 then 30 * second else c.server.writeTimeout) ∧
    (setDefaults c).ourcloud.grpcAddress =
      (if c.ourcloud.grpcAddress = "" then "localhost:50051"
       else c.ourcloud.grpcAddress) ∧
    (setDefaults c).batch.window =
      (if c.batch.window = 0 then 60 * second else c.batch.window) ∧
    (setDefaults c).batch.maxSize =
      (if c.batch.maxSize = 0 then 100 else c.batch.maxSize) ∧
    (setDefaults c).batch.storagePath =
      (if c.batch.storagePath = "" then "/var/lib/pushserver/batches"
       else c.batch.storagePath) ∧
    (setDefaults c).status.retention =
      (if c.status.retention = 0 then hour else c.status.retention) ∧
    (setDefaults c).firebase = c.firebase := by
  obtain ⟨⟨p, rt, wt⟩, fb, ⟨g⟩, ⟨w, m, sp⟩, ⟨ret⟩⟩ := c
  by_cases hp : p = 0 <;> by_cases hrt : rt = 0 <;> by_cases hwt : wt = 0 <;>
    by_cases hg : g = "" <;> by_cases hw : w = 0 <;> by_cases hm : m = 0 <;>
    by_cases hsp : sp = "" <;> by_cases hret : ret = 0 <;>
    simp [setDefaults, hp, hrt, hwt, hg, hw, hm, hsp, hret]

/-- Claim C3: flushing a non-empty batch makes exactly one provider call
whose payload is the concatenation of the batch's content-identifier lists
in insertion order; on success the status published for every contained
RequestID is `sent` with `sent_at` the flush time, on any adapter error it
is `failed` carrying the adapter's error string; in both cases the batch row
is deleted atomically with the status writes and the in-memory batch is
cleared.  (Hypothesis `hrow`: the store row is the one `Queue` persisted,
i.e. it matches the in-memory batch.) -/
theorem c3_flush_semantics (cfg : batcher.Config) (st : BatcherState) (e : String)
    (b : Batch) (now : Time) (r : Option String)
    (hm : lookupKey e st.batches = some (some b))
    (hne : b.notifications ≠ [])
    (hrow : lookupKey e st.store.batches = some b) :
    (flushSync cfg st e now r false).sends
      = st.sends ++ [(e, concatDataIDs b.notifications)] ∧
    (∀ n ∈ b.notifications,
      store.GetStatus (flushSync cfg st e now r false).store n.requestID
        = some (terminalStatus cfg now r)) ∧
    (r = none → (terminalStatus cfg now r).state = StatusSent ∧
      (terminalStatus cfg now r).sentAt = some now) ∧
    (∀ msg, r = some msg → (terminalStatus cfg now r).state = StatusFailed ∧
      (terminalStatus cfg now r).error = msg) ∧
    lookupKey e (flushSync cfg st e now r false).store.batches = none ∧
    entryBatch (flushSync cfg st e now r false) e = none := by
  rw [flushSync_active cfg now r false hm hne]
  refine ⟨rfl, ?_, ?_, ?_, ?_, ?_⟩
  · intro n hn
    have hmem : n.requestID ∈ b.notifications.map QueuedNotification.requestID :=
      List.mem_map_of_mem _ hn
    simp [store.GetStatus, DeleteBatchAndSetStatus, hrow,
      lookupKey_setStatusRows, hmem]
  · intro h
    subst h
    exact ⟨rfl, rfl⟩
  · intro msg h
    subst h
    exact ⟨rfl, rfl⟩
  · simp [DeleteBatchAndSetStatus, hrow, lookupKey_eraseKey_self]
  · simp [entryBatch, lookupKey_upsertKey_self]

/-- Witness for C3: flushing an endpoint whose batch holds one notification
with two content identifiers yields exactly one provider call carrying both
identifiers in order, and publishes a `sent` status for its RequestID. -/
theorem c3_witness :
    (flushSync ⟨60, 100, 0, 3600⟩
      ⟨[("e", some ⟨[⟨[[1], [2]], 3⟩], 0, 60⟩)], ["e"], false,
        ⟨[("e", ⟨[⟨[[1], [2]], 3⟩], 0, 60⟩)], []⟩, 4, []⟩
      "e" 60 none false).sends = [("e", [[1], [2]])] ∧
    store.GetStatus (flushSync ⟨60, 100, 0, 3600⟩
      ⟨[("e", some ⟨[⟨[[1], [2]], 3⟩], 0, 60⟩)], ["e"], false,
        ⟨[("e", ⟨[⟨[[1], [2]], 3⟩], 0, 60⟩)], []⟩, 4, []⟩
      "e" 60 none false).store 3 = some ⟨StatusSent, some 60, "", 3660⟩ := by
  have h := c3_flush_semantics ⟨60, 100, 0, 3600⟩
    ⟨[("e", some ⟨[⟨[[1], [2]], 3⟩], 0, 60⟩)], ["e"], false,
      ⟨[("e", ⟨[⟨[[1], [2]], 3⟩], 0, 60⟩)], []⟩, 4, []⟩
    "e" ⟨[⟨[[1], [2]], 3⟩], 0, 60⟩ 60 none (by decide) (by decide) (by decide)
  refine ⟨by simpa [concatDataIDs] using h.1, ?_⟩
  have h2 := h.2.1 ⟨[[1], [2]], 3⟩ (by decide)
  simpa [terminalStatus, StatusSent] using h2

/-- Claim C8: store failures do not change the visible outcome of the
batching operations.  When the batch persistence write fails during
`Queue`, the freshly minted RequestID is still returned, the store is
untouched and the notification stays in the in-memory batch (so it will
flush from memory).  When the atomic delete-and-set-status write fails
during a flush, the provider call is still made, the failure is only logged
— the store is unchanged — and the in-memory batch is still cleared. -/
theorem c8_store_failures_tolerated (cfg : batcher.Config) (st : BatcherState)
    (e : String) (ids : List (List Nat)) (now : Time)
    (b : Batch) (r : Option String)
    (hstop : st.stopped = false) :
    ((Queue cfg st e ids .acquired now true).result = .ok st.nextId ∧
     (Queue cfg st e ids .acquired now true).state.store = st.store ∧
     ∃ nb : Batch,
       entryBatch (Queue cfg st e ids .acquired now true).state e = some nb ∧
       nb.notifications
         = ((entryBatch st e).map Batch.notifications).getD []
             ++ [⟨ids, st.nextId⟩]) ∧
    (lookupKey e st.batches = some (some b) → b.notifications ≠ [] →
      (flushSync cfg st e now r true).store = st.store ∧
      (flushSync cfg st e now r true).sends
        = st.sends ++ [(e, concatDataIDs b.notifications)] ∧
      entryBatch (flushSync cfg st e now r true) e = none) := by
  constructor
  · obtain ⟨hres, hsto, hlk, hrows, hstp, hnid⟩ :=
      Queue_acquired_spec cfg st e ids now true hstop
    refine ⟨hres, by simpa using hsto, queuedBatch cfg st e ids now, ?_, ?_⟩
    · simp [entryBatch, hlk]
    · unfold queuedBatch
      cases hE : entryBatch st e <;> simp [hE]
  · intro hm hne
    rw [flushSync_active cfg now r true hm hne]
    exact ⟨rfl, rfl, by simp [entryBatch, lookupKey_upsertKey_self]⟩

/-- Witness for C8: a failing store write during `Queue` on a fresh endpoint
still returns RequestID 0 and leaves the notification in memory; a failing
status write during flush still clears the in-memory batch. -/
theorem c8_witness :
    (Queue ⟨60, 100, 0, 3600⟩ ⟨[], [], false, ⟨[], []⟩, 0, []⟩
      "e" [[5]] .acquired 10 true).result = .ok 0 ∧
    (Queue ⟨60, 100, 0, 3600⟩ ⟨[], [], false, ⟨[], []⟩, 0, []⟩
      "e" [[5]] .acquired 10 true).state.store = (⟨[], []⟩ : StoreState) ∧
    entryBatch (flushSync ⟨60, 100, 0, 3600⟩
      ⟨[("e", some ⟨[⟨[[5]], 0⟩], 10, 70⟩)], ["e"], false, ⟨[], []⟩, 1, []⟩
      "e" 70 none true) "e" = none := by
  have h1 := (c8_store_failures_tolerated ⟨60, 100, 0, 3600⟩
    ⟨[], [], false, ⟨[], []⟩, 0, []⟩ "e" [[5]] 10 ⟨[], 0, 0⟩ none rfl).1
  have h2 := (c8_store_failures_tolerated ⟨60, 100, 0, 3600⟩
    ⟨[("e", some ⟨[⟨[[5]], 0⟩], 10, 70⟩)], ["e"], false, ⟨[], []⟩, 1, []⟩
    "e" [[5]] 70 ⟨[⟨[[5]], 0⟩], 10, 70⟩ none rfl).2 (by decide) (by decide)
  exact ⟨h1.1, h1.2.1, h2.2.2⟩

/-- Claim C5: `Recover` repeatedly loads pages of up to 100 batches ordered
by ascending flush_at and flushes each one synchronously, stopping when an
empty or partial page is observed; on a store holding N pending batches
(rows are uniquely keyed and non-empty, the schema's invariants) and given
enough fuel (the source loop is unbounded), it terminates having made
exactly N provider calls — one per batch, each carrying that batch's
concatenated payload in insertion order — and leaves the batches table
empty. -/
theorem c5_recover_drains (cfg : batcher.Config) (st : BatcherState) (now : Time)
    (f : String → Option String) (fuel : Nat)
    (hsk : (st.store.batches.map Prod.fst).Nodup)
    (hne : ∀ p ∈ st.store.batches, p.2.notifications ≠ [])
    (hfuel : st.store.batches.length < fuel) :
    (Recover cfg fuel st now f).2 = true ∧
    (Recover cfg fuel st now f).1.store.batches = [] ∧
    ∃ L, (Recover cfg fuel st now f).1.sends = st.sends ++ L ∧
      L.length = st.store.batches.length ∧
      L.Perm (st.store.batches.map rowPayload) := by
  obtain ⟨h1, h2, L, h3, h4⟩ := recoverLoop_spec cfg now f fuel st hsk hne hfuel
  exact ⟨h1, h2, L, h3, by simpa using h4.length_eq, h4⟩

/-- Witness for C5: recovering a store holding two one-notification batches
(endpoints "a" and "b") drains the batches table and reports completion. -/
theorem c5_witness :
    (Recover ⟨60, 100, 0, 3600⟩ 3
      ⟨[], [], false,
        ⟨[("a", ⟨[⟨[[1]], 0⟩], 0, 10⟩), ("b", ⟨[⟨[[2]], 1⟩], 0, 20⟩)], []⟩, 2, []⟩
      0 (fun _ => none)).2 = true ∧
    (Recover ⟨60, 100, 0, 3600⟩ 3
      ⟨[], [], false,
        ⟨[("a", ⟨[⟨[[1]], 0⟩], 0, 10⟩), ("b", ⟨[⟨[[2]], 1⟩], 0, 20⟩)], []⟩, 2, []⟩
      0 (fun _ => none)).1.store.batches = [] := by
  have h := c5_recover_drains ⟨60, 100, 0, 3600⟩
    ⟨[], [], false,
      ⟨[("a", ⟨[⟨[[1]], 0⟩], 0, 10⟩), ("b", ⟨[⟨[[2]], 1⟩], 0, 20⟩)], []⟩, 2, []⟩
    0 (fun _ => none) 3 (by decide) (by decide) (by decide)
  exact ⟨h.1, h.2.1⟩

/-- Claim C6: for the RequestID returned by a successful `queue`,
`get_status` returns not-found before the batch flushes (no status row is
ever written for it by `queue`), and once the batch reaches a terminal
flush, `get_status` returns a status whose state is `sent` or `failed` —
never `queued`.  (Hypothesis `hfresh`: every status row in the store is
keyed below the fresh-id counter, the invariant of minted RequestIDs.) -/
theorem c6_status_lifecycle (cfg : batcher.Config) (st : BatcherState) (e : String)
    (ids : List (List Nat)) (now : Time)
    (hstop : st.stopped = false)
    (hfresh : ∀ p ∈ st.store.statusRows, p.1 < st.nextId) :
    (Queue cfg st e ids .acquired now false).result = .ok st.nextId ∧
    batcher.GetStatus (Queue cfg st e ids .acquired now false).state st.nextId
      = none ∧
    (∀ (now2 : Time) (r : Option String),
      batcher.GetStatus
        (flushSync cfg (Queue cfg st e ids .acquired now false).state e now2 r false)
        st.nextId = some (terminalStatus cfg now2 r) ∧
      ((terminalStatus cfg now2 r).state = StatusSent ∨
       (terminalStatus cfg now2 r).state = StatusFailed) ∧
      (terminalStatus cfg now2 r).state ≠ StatusQueued) := by
  obtain ⟨hres, hsto, hlk, hrows, hstp, hnid⟩ :=
    Queue_acquired_spec cfg st e ids now false hstop
  have hNoRow : lookupKey st.nextId
      (Queue cfg st e ids .acquired now false).state.store.statusRows = none := by
    rw [hrows]
    exact lookupKey_eq_none_of_forall
      (fun p hp => Nat.ne_of_lt (hfresh p hp))
  refine ⟨hres, hNoRow, ?_⟩
  intro now2 r
  have hqb_ne : (queuedBatch cfg st e ids now).notifications ≠ [] := by
    unfold queuedBatch
    cases hE : entryBatch st e <;> simp [hE]
  have hstore_row : lookupKey e
      (Queue cfg st e ids .acquired now false).state.store.batches
      = some (queuedBatch cfg st e ids now) := by
    have : (Queue cfg st e ids .acquired now false).state.store
        = SaveBatch st.store e (queuedBatch cfg st e ids now) := by
      simpa using hsto
    rw [this]
    exact lookupKey_upsertKey_self e _ _
  rw [flushSync_active cfg now2 r false hlk hqb_ne]
  have hmem : st.nextId ∈
      (queuedBatch cfg st e ids now).notifications.map
        QueuedNotification.requestID := by
    unfold queuedBatch
    cases hE : entryBatch st e <;> simp [hE]
  refine ⟨?_, ?_, ?_⟩
  · simp [batcher.GetStatus, store.GetStatus, DeleteBatchAndSetStatus,
      hstore_row, lookupKey_setStatusRows, hmem]
  · cases r <;> simp [terminalStatus]
  · cases r <;> simp [terminalStatus, StatusSent, StatusFailed, StatusQueued]

/-- Witness for C6: queueing one notification on a fresh engine returns
RequestID 0 with no status row visible, and after the flush the status under
RequestID 0 is terminal (`sent` here). -/
theorem c6_witness :
    (Queue ⟨60, 100, 0, 3600⟩ ⟨[], [], false, ⟨[], []⟩, 0, []⟩
      "e" [[7]] .acquired 5 false).result = .ok 0 ∧
    batcher.GetStatus (Queue ⟨60, 100, 0, 3600⟩ ⟨[], [], false, ⟨[], []⟩, 0, []⟩
      "e" [[7]] .acquired 5 false).state 0 = none ∧
    batcher.GetStatus
      (flushSync ⟨60, 100, 0, 3600⟩
        (Queue ⟨60, 100, 0, 3600⟩ ⟨[], [], false, ⟨[], []⟩, 0, []⟩
          "e" [[7]] .acquired 5 false).state "e" 65 none false) 0
      = some (terminalStatus ⟨60, 100, 0, 3600⟩ 65 none) := by
  have h := c6_status_lifecycle ⟨60, 100, 0, 3600⟩
    ⟨[], [], false, ⟨[], []⟩, 0, []⟩ "e" [[7]] 5 rfl (by simp)
  exact ⟨h.1, h.2.1, (h.2.2 65 none).1⟩

/-- Claim C2: the validation pipeline runs parse, required-field validation,
signature verification, consent and endpoint lookup in that fixed order; the
first failing step terminates the chain with error code 4, 4, 3, 2, 1 and
HTTP status 400, 400, 401, 403, 404 respectively (a metadata-client error
maps to the same code as a false or empty result), with accepted=false and
no later step run; when every step passes, the response carries
accepted=true, the minted RequestID, error code 0 and HTTP 200. -/
theorem c2_pipeline_order_and_codes (client : MetaClient) (r : HttpRequest)
    (newUuid : String) :
    (parseRequest r = none →
      (HandlePush client r newUuid).resp.accepted = false ∧
      (HandlePush client r newUuid).resp.errorCode = 4 ∧
      (HandlePush client r newUuid).httpStatus = 400 ∧
      (HandlePush client r newUuid).stepsRun = [.parseStep]) ∧
    (∀ req, parseRequest r = some req → validateRequest req = false →
      (HandlePush client r newUuid).resp.accepted = false ∧
      (HandlePush client r newUuid).resp.errorCode = 4 ∧
      (HandlePush client r newUuid).httpStatus = 400 ∧
      (HandlePush client r newUuid).stepsRun = [.parseStep, .validateStep]) ∧
    (∀ req, parseRequest r = some req → validateRequest req = true →
      client.verifyPushRequest req ≠ some true →
      (HandlePush client r newUuid).resp.accepted = false ∧
      (HandlePush client r newUuid).resp.errorCode = 3 ∧
      (HandlePush client r newUuid).httpStatus = 401 ∧
      (HandlePush client r newUuid).stepsRun
        = [.parseStep, .validateStep, .verifyStep]) ∧
    (∀ req, parseRequest r = some req → validateRequest req = true →
      client.verifyPushRequest req = some true →
      client.hasConsent req.targetUsername req.senderUsername ≠ some true →
      (HandlePush client r newUuid).resp.accepted = false ∧
      (HandlePush client r newUuid).resp.errorCode = 2 ∧
      (HandlePush client r newUuid).httpStatus = 403 ∧
      (HandlePush client r newUuid).stepsRun
        = [.parseStep, .validateStep, .verifyStep, .consentStep]) ∧
    (∀ req, parseRequest r = some req → validateRequest req = true →
      client.verifyPushRequest req = some true →
      client.hasConsent req.targetUsername req.senderUsername = some true →
      (client.getEndpoints req.targetUsername = none ∨
       client.getEndpoints req.targetUsername = some []) →
      (HandlePush client r newUuid).resp.accepted = false ∧
      (HandlePush client r newUuid).resp.errorCode = 1 ∧
      (HandlePush client r newUuid).httpStatus = 404 ∧
      (HandlePush client r newUuid).stepsRun
        = [.parseStep, .validateStep, .verifyStep, .consentStep, .endpointsStep]) ∧
    (∀ req eps, parseRequest r = some req → validateRequest req = true →
      client.verifyPushRequest req = some true →
      client.hasConsent req.targetUsername req.senderUsername = some true →
      client.getEndpoints req.targetUsername = some eps → eps ≠ [] →
      (HandlePush client r newUuid).resp.accepted = true ∧
      (HandlePush client r newUuid).resp.requestId = newUuid ∧
      (HandlePush client r newUuid).resp.errorCode = 0 ∧
      (HandlePush client r newUuid).httpStatus = 200) := by
  refine ⟨?_, ?_, ?_, ?_, ?_, ?_⟩
  · intro hp
    simp [HandlePush, hp, mkResult, writeResponseStatus,
      ErrorCodeInvalidRequest, ErrorCodeSuccess]
  · intro req hp hv
    simp [HandlePush, hp, hv, mkResult, writeResponseStatus,
      ErrorCodeInvalidRequest, ErrorCodeSuccess]
  · intro req hp hv hver
    rcases hvr : client.verifyPushRequest req with _ | b
    · simp [HandlePush, hp, hv, hvr, mkResult, writeResponseStatus,
        ErrorCodeSignatureFailed, ErrorCodeSuccess, ErrorCodeInvalidRequest]
    · cases b
      · simp [HandlePush, hp, hv, hvr, mkResult, writeResponseStatus,
          ErrorCodeSignatureFailed, ErrorCodeSuccess, ErrorCodeInvalidRequest]
      · exact absurd hvr hver
  · intro req hp hv hver hcon
    rcases hc : client.hasConsent req.targetUsername req.senderUsername with _ | b
    · simp [HandlePush, hp, hv, hver, hc, mkResult, writeResponseStatus,
        ErrorCodeNoConsent, ErrorCodeSuccess, ErrorCodeInvalidRequest,
        ErrorCodeSignatureFailed]
    · cases b
      · simp [HandlePush, hp, hv, hver, hc, mkResult, writeResponseStatus,
          ErrorCodeNoConsent, ErrorCodeSuccess, ErrorCodeInvalidRequest,
          ErrorCodeSignatureFailed]
      · exact absurd hc hcon
  · intro req hp hv hver hcon hend
    rcases hend with hend | hend <;>
      simp [HandlePush, hp, hv, hver, hcon, hend, mkResult, writeResponseStatus,
        ErrorCodeNoEndpoints, ErrorCodeSuccess, ErrorCodeInvalidRequest,
        ErrorCodeSignatureFailed, ErrorCodeNoConsent]
  · intro req eps hp hv hver hcon hend hne
    have hlen : ¬ eps.length = 0 := by
      simpa [List.length_eq_zero] using hne
    simp [HandlePush, hp, hv, hver, hcon, hend, hlen, mkResult,
      writeResponseStatus, ErrorCodeSuccess]

/-- Witness for C2: a request whose target has not consented terminates at
the consent step with error code 2 and HTTP 403. -/
theorem c2_witness :
    (HandlePush
      { verifyPushRequest := fun _ => some true
        hasConsent := fun _ _ => some false
        getEndpoints := fun _ => some ["T1"] }
      { contentType := "application/x-protobuf", readFails := false,
        body := [1], decoded := some
          { senderUsername := "bob@oc", targetUsername := "alice@oc",
            targetNodeIds := [], timestamp := 1700000000,
            dataIds := [[1, 2, 3]], signature := [9] } }
      "u1").resp.errorCode = 2 ∧
    (HandlePush
      { verifyPushRequest := fun _ => some true
        hasConsent := fun _ _ => some false
        getEndpoints := fun _ => some ["T1"] }
      { contentType := "application/x-protobuf", readFails := false,
        body := [1], decoded := some
          { senderUsername := "bob@oc", targetUsername := "alice@oc",
            targetNodeIds := [], timestamp := 1700000000,
            dataIds := [[1, 2, 3]], signature := [9] } }
      "u1").httpStatus = 403 := by
  have h := (c2_pipeline_order_and_codes
    { verifyPushRequest := fun _ => some true
      hasConsent := fun _ _ => some false
      getEndpoints := fun _ => some ["T1"] }
    { contentType := "application/x-protobuf", readFails := false,
      body := [1], decoded := some
        { senderUsername := "bob@oc", targetUsername := "alice@oc",
          targetNodeIds := [], timestamp := 1700000000,
          dataIds := [[1, 2, 3]], signature := [9] } }
    "u1").2.2.2.1
    { senderUsername := "bob@oc", targetUsername := "alice@oc",
      targetNodeIds := [], timestamp := 1700000000,
      dataIds := [[1, 2, 3]], signature := [9] }
    rfl rfl rfl (by simp)
  exact ⟨h.2.1, h.2.2.1⟩

/-- Claim C1 (code evaluation): on a fully valid request whose target owns
two endpoints, `HandlePush` as written accepts with the minted RequestID but
performs zero Batching Engine queue calls — step 5 of the source only mints
the id (the batching hand-off is a TODO), so no delivery status will ever be
published under the returned RequestID. -/
theorem c1_handler_makes_no_queue_calls :
    (HandlePush
      { verifyPushRequest := fun _ => some true
        hasConsent := fun _ _ => some true
        getEndpoints := fun _ => some ["T1", "T2"] }
      { contentType := "application/x-protobuf", readFails := false,
        body := [1], decoded := some
          { senderUsername := "bob@oc", targetUsername := "alice@oc",
            targetNodeIds := [], timestamp := 1700000000,
            dataIds := [[1, 2, 3]], signature := [9] } }
      "rid-1")
    = { resp := { accepted := true, requestId := "rid-1",
                  errorCode := 0, message := "" },
        httpStatus := 200,
        stepsRun := [.parseStep, .validateStep, .verifyStep, .consentStep,
                     .endpointsStep, .admitStep],
        queueCalls := [] } := by
  rfl

end PushGateway
